import Mathlib

/-!
# Package `rest`: response envelopes, error envelopes, request identifiers, preflight middleware

A shallow embedding of `response.go`, `request.go` and the preflight middleware of `server.go`.

* Go `interface{}` values are `Option Any` (`none` is the nil interface).
* Pointers that may be nil (`*http.Cookie`) are `Option`; `*Error` values live in an explicit heap.
* `http.ResponseWriter` is the log of the calls made on it, oldest first; the error it returns
  from `Write` is an input of the functions that write a body.
* `time.Now().Unix()`, `uuid.New().String()` and the JSON marshaller of `encoding/json`
  are inputs of the functions that use them.
* `subtle.ConstantTimeCompare`, `context.WithValue` and `Context.Value` follow the Go standard
  library.
-/

namespace Rest

/-! ## Go values -/

/-- A dynamic Go value held in a non-nil `interface{}`. `other` stands for every value that is
neither an integer, a string nor a boolean (maps, slices, structs, channels, ...). -/
inductive Any where
  | int (n : Int)
  | str (s : String)
  | bool (b : Bool)
  | other (tag : Nat)
  deriving DecidableEq, Repr

/-- The `http.Cookie` a response points to (the attributes beyond name and value play no role in
this package). -/
structure Cookie where
  Name : String
  Value : String
  deriving DecidableEq, Repr

/-- A Go `map[string]interface{}` literal, entries in the order of the literal. -/
abbrev JSONMap := List (String × Any)

/-- Keys of a map literal. -/
def JSONMap.keys (m : JSONMap) : List String := m.map Prod.fst

/-- Map access `m[k]`. -/
def JSONMap.get (m : JSONMap) (k : String) : Option Any := m.lookup k

/-- What `json.Marshal` answers for a map (followed by the newline `Encode` appends): the bytes, or
an encoding error. -/
abbrev Marshaler := JSONMap → Except String String

/-! ## The transport -/

/-- One operation on an `http.ResponseWriter`. -/
inductive Op where
  /-- The call `http.SetCookie(w, c)` -/
  | setCookie (c : Cookie)
  /-- The call `w.Header().Set(key, value)` -/
  | headerSet (key value : String)
  /-- The call `w.WriteHeader(code)` -/
  | writeHeader (code : Int)
  /-- The call `w.Write(b)` -/
  | write (b : String)
  deriving DecidableEq, Repr

/-- An `http.ResponseWriter`, as the sequence of operations performed on it so far. -/
abbrev ResponseWriter := List Op

/-- Is the operation a `http.SetCookie`? -/
def Op.isSetCookie : Op → Bool
  | .setCookie _ => true
  | _ => false

/-- Is the operation a `WriteHeader`? -/
def Op.isWriteHeader : Op → Bool
  | .writeHeader _ => true
  | _ => false

/-- Is the operation a body `Write`? -/
def Op.isWrite : Op → Bool
  | .write _ => true
  | _ => false

/-- The call `http.SetCookie(w, c)`. -/
def SetCookie (w : ResponseWriter) (c : Cookie) : ResponseWriter := w ++ [Op.setCookie c]

/-- The call `w.Header().Set(key, value)`. -/
def HeaderSet (w : ResponseWriter) (key value : String) : ResponseWriter :=
  w ++ [Op.headerSet key value]

/-- The call `w.WriteHeader(code)`. -/
def WriteHeader (w : ResponseWriter) (code : Int) : ResponseWriter := w ++ [Op.writeHeader code]

/-- The error an `http.ResponseWriter` returns from the call `w.Write(b)` (`none` is nil), given
the calls made on it before. -/
abbrev WriteAnswer := ResponseWriter → String → Option String

/-- The call `json.NewEncoder(w).Encode(v)`: marshal first; an encoding error is returned and nothing
is written, otherwise the bytes go to the writer in one `Write` and the error of that `Write` is
returned. -/
def Encode (marshal : Marshaler) (wr : WriteAnswer) (w : ResponseWriter) (v : JSONMap) :
    ResponseWriter × Option String :=
  match marshal v with
  | .error e => (w, some e)
  | .ok b => (w ++ [Op.write b], wr w b)

/-- The body bytes handed to `Write` so far. -/
def body (w : ResponseWriter) : String :=
  w.foldl (fun acc op => match op with
    | .write b => acc ++ b
    | _ => acc) ""

/-! ## `response.go`: the success envelope -/

/-- Constant `http.StatusOK`. -/
def StatusOK : Int := 200
/-- Constant `http.StatusNoContent`. -/
def StatusNoContent : Int := 204
/-- Constant `http.StatusBadRequest`. -/
def StatusBadRequest : Int := 400
/-- Constant `http.StatusUnauthorized`. -/
def StatusUnauthorized : Int := 401
/-- Constant `http.StatusForbidden`. -/
def StatusForbidden : Int := 403
/-- Constant `http.StatusNotFound`. -/
def StatusNotFound : Int := 404
/-- Constant `http.StatusInternalServerError`. -/
def StatusInternalServerError : Int := 500

/-- The struct `Response`. -/
structure Response where
  code : Int
  msg : String
  data : Option Any
  cookie : Option Cookie
  deriving DecidableEq, Repr

/-- Constructor `Ok(msg)`: the fields left out of the literal are zero values. -/
def Ok (msg : String) : Response :=
  { code := StatusOK, msg := msg, data := none, cookie := none }

/-- Constructor `NoContent()`. -/
def NoContent : Response :=
  { code := StatusNoContent, msg := "", data := none, cookie := none }

/-- Method `WithData`: the literal names `code`, `msg` and `data`; `cookie` is left out of it and so
is the zero value, nil. -/
def Response.WithData (r : Response) (d : Option Any) : Response :=
  { code := r.code, msg := r.msg, data := d, cookie := none }

/-- Method `WithCookie`: the literal names all four fields. -/
def Response.WithCookie (r : Response) (cookie : Option Cookie) : Response :=
  { code := r.code, msg := r.msg, data := r.data, cookie := cookie }

/-- Method `Code`. -/
def Response.Code (r : Response) : Int := r.code

/-- Method `Message`. -/
def Response.Message (r : Response) : String := r.msg

/-- Method `Write`, with `now` the value of `time.Now().Unix()`. Returns the writer afterwards and
the returned error (`none` is nil): that of `Encode` where the body is encoded, nil where the
method returns before. -/
def Response.Write (marshal : Marshaler) (wr : WriteAnswer) (now : Int) (r : Response)
    (w : ResponseWriter) :
    ResponseWriter × Option String :=
  let w1 := match r.cookie with
    | some c => SetCookie w c
    | none => w
  let w2 := HeaderSet w1 "content-type" "application/json"
  let w3 := WriteHeader w2 r.code
  match r.data with
  | some d =>
    Encode marshal wr w3
      [("status", Any.int r.code), ("message", Any.str r.msg), ("data", d), ("ts", Any.int now)]
  | none =>
    if r.msg = "" then (w3, none)
    else
      Encode marshal wr w3
        [("status", Any.int r.code), ("message", Any.str r.msg), ("ts", Any.int now)]

/-! ## `response.go`: the error envelope -/

/-- The `error` value `fmt.Errorf(format, args...)`, kept as the format and its operands. -/
structure GoError where
  format : String
  args : List Any
  deriving DecidableEq, Repr

/-- The call `fmt.Errorf(format, args...)`. -/
def Errorf (format : String) (args : List Any) : GoError := { format := format, args := args }

/-- The struct `Error`; `Status` is an `error` interface and may be nil. -/
structure Error where
  StatusCode : Int
  Status : Option GoError
  Msg : String
  deriving DecidableEq, Repr

/-- The `Error` values allocated so far; a `*Error` is the index of its cell. -/
abbrev Heap := List Error

/-- The expression `&Error{...}`: a fresh cell at the end of the heap, and its address. -/
def Heap.alloc (h : Heap) (e : Error) : Heap × Nat := (h ++ [e], h.length)

/-- Constructor `NewError(code, msg, args...)`. -/
def NewError (h : Heap) (code : Int) (msg : String) (args : List Any) : Heap × Nat :=
  h.alloc { StatusCode := code, Status := some (Errorf msg args), Msg := "" }

/-- Method `Err`. -/
def Error.Err (e : Error) : Option GoError := e.Status

/-- Method `Code`. -/
def Error.Code (e : Error) : Int := e.StatusCode

/-- Method `WithMessage` on the pointer `e`: reads the cell of `e` (`none` when `e` is not an
allocated cell, where Go panics) and allocates the copy that carries `msg`. -/
def WithMessage (h : Heap) (e : Nat) (msg : String) : Option (Heap × Nat) :=
  match h[e]? with
  | none => none
  | some v => some (h.alloc { StatusCode := v.StatusCode, Status := v.Status, Msg := msg })

/-- Method `Write` of `Error`, with `now` the value of `time.Now().Unix()`. -/
def Error.Write (marshal : Marshaler) (wr : WriteAnswer) (now : Int) (e : Error)
    (w : ResponseWriter) :
    ResponseWriter × Option String :=
  let w1 := HeaderSet w "content-type" "application/json"
  let w2 := WriteHeader w1 e.StatusCode
  Encode marshal wr w2
    [("status", Any.int e.StatusCode), ("error", Any.str e.Msg), ("ts", Any.int now)]

/-- Constructor `Internal(err, args...)`. -/
def Internal (h : Heap) (err : String) (args : List Any) : Heap × Nat :=
  h.alloc { StatusCode := StatusInternalServerError, Status := some (Errorf err args), Msg := "" }

/-- Constructor `BadRequest(err, args...)`. -/
def BadRequest (h : Heap) (err : String) (args : List Any) : Heap × Nat :=
  h.alloc { StatusCode := StatusBadRequest, Status := some (Errorf err args), Msg := "" }

/-- Constructor `NotFound(err, args...)`. -/
def NotFound (h : Heap) (err : String) (args : List Any) : Heap × Nat :=
  h.alloc { StatusCode := StatusNotFound, Status := some (Errorf err args), Msg := "" }

/-- Constructor `Forbidden(err, args...)`. -/
def Forbidden (h : Heap) (err : String) (args : List Any) : Heap × Nat :=
  h.alloc { StatusCode := StatusForbidden, Status := some (Errorf err args), Msg := "" }

/-- Constructor `NotAuthorized(err, args...)`. -/
def NotAuthorized (h : Heap) (err : String) (args : List Any) : Heap × Nat :=
  h.alloc { StatusCode := StatusUnauthorized, Status := some (Errorf err args), Msg := "" }

/-- The five status-specific constructors of `response.go`. -/
inductive Ctor where
  | BadRequest
  | NotAuthorized
  | Forbidden
  | NotFound
  | Internal
  deriving DecidableEq, Repr

/-- The constructor function a name stands for. -/
def Ctor.build : Ctor → Heap → String → List Any → Heap × Nat
  | .BadRequest => Rest.BadRequest
  | .NotAuthorized => Rest.NotAuthorized
  | .Forbidden => Rest.Forbidden
  | .NotFound => Rest.NotFound
  | .Internal => Rest.Internal

/-- The status the specification pairs with each constructor. -/
def Ctor.status : Ctor → Int
  | .BadRequest => 400
  | .NotAuthorized => 401
  | .Forbidden => 403
  | .NotFound => 404
  | .Internal => 500

/-! ## `request.go`: the request identifier -/

/-- A context key: the package-private `reqID{}`, or any other value. -/
inductive Key where
  | reqID
  | other (k : Any)
  deriving DecidableEq, Repr

/-- A `context.Context`: the root, a `context.WithValue` child, or a child that adds no value
(`WithCancel`, `WithDeadline`, `WithTimeout`). -/
inductive Context where
  | background
  | withValue (parent : Context) (key : Key) (val : Option Any)
  | derived (parent : Context)
  deriving DecidableEq, Repr

/-- Method `ctx.Value(key)`: the value of the nearest ancestor that carries the key, else nil. -/
def Context.Value : Context → Key → Option Any
  | .background, _ => none
  | .withValue parent k v, key => if k = key then v else parent.Value key
  | .derived parent, key => parent.Value key

/-- Function `NewRequestID`, with `uuid` the value of `uuid.New().String()`. -/
def NewRequestID (uuid : String) (ctx : Context) : Context :=
  Context.withValue ctx Key.reqID (some (Any.str uuid))

/-- Function `RequestID`: the type assertion `.(string)` succeeds on string values only. -/
def RequestID (ctx : Context) : String :=
  match ctx.Value Key.reqID with
  | some (Any.str id) => id
  | _ => "<missing-request-id>"

/-- Whether a value was attached under `reqID{}` to the context or one of its ancestors. -/
def Context.hasRequestID : Context → Bool
  | .background => false
  | .withValue parent k _ => k == Key.reqID || parent.hasRequestID
  | .derived parent => parent.hasRequestID

/-- One derivation step that attaches no request identifier: a value under another key, or a
child without a value. -/
inductive Step where
  | value (k : Any) (v : Option Any)
  | plain
  deriving DecidableEq, Repr

/-- The context reached from `ctx` by the given derivation steps, first step first. -/
def Context.derive (ctx : Context) : List Step → Context
  | [] => ctx
  | Step.value k v :: rest => (Context.withValue ctx (Key.other k) v).derive rest
  | Step.plain :: rest => (Context.derived ctx).derive rest

/-! ## `server.go`: the preflight middleware -/

/-- A byte. -/
abbrev Byte := Fin 256

/-- The part of an `http.Request` the middleware reads or hands on: the method as the bytes of the
Go string, the request URI and the context. -/
structure Request where
  Method : List Byte
  URI : String
  ctx : Context
  deriving DecidableEq, Repr

/-- The bytes of the string literal "OPTIONS". -/
def OPTIONS : List Byte := [79, 80, 84, 73, 79, 78, 83]

/-- Function `subtle.ConstantTimeByteEq` on `uint8` operands: `int((uint32(x^y) - 1) >> 31)`, the
subtraction wrapping at 32 bits. -/
def ConstantTimeByteEq (x y : Nat) : Nat :=
  ((((x ^^^ y) % 2 ^ 32) + 2 ^ 32 - 1) % 2 ^ 32) >>> 31

/-- The loop of `subtle.ConstantTimeCompare`: `v |= x[i] ^ y[i]` over the positions. -/
def xorFold : Nat → List Byte → List Byte → Nat
  | v, a :: x, b :: y => xorFold (v ||| (a.val ^^^ b.val)) x y
  | v, _, _ => v

/-- Function `subtle.ConstantTimeCompare`: 0 when the lengths differ, else the OR of the XORs of
the bytes compared with zero. -/
def ConstantTimeCompare (x y : List Byte) : Nat :=
  if x.length ≠ y.length then 0
  else ConstantTimeByteEq (xorFold 0 x y) 0

/-- An `http.Handler`: what `ServeHTTP(w, r)` does to the writer. -/
abbrev Handler := ResponseWriter → Request → ResponseWriter

/-- One run of a middleware-wrapped handler: the writer afterwards, and the calls made to
`next.ServeHTTP`, each with the writer and the request it was given. -/
structure Run where
  w : ResponseWriter
  calls : List (ResponseWriter × Request)
  deriving DecidableEq, Repr

/-- The handler that the middleware registered by `WithCORS` returns for `next`, run on `w` and
`r`: on method OPTIONS it writes `NoContent()` (the returned error is dropped) and returns,
otherwise it calls `next.ServeHTTP(w, r)`. -/
def preflight (marshal : Marshaler) (wr : WriteAnswer) (now : Int) (next : Handler)
    (w : ResponseWriter)
    (r : Request) : Run :=
  if ConstantTimeCompare r.Method OPTIONS = 1 then
    { w := (NoContent.Write marshal wr now w).1, calls := [] }
  else
    { w := next w r, calls := [(w, r)] }

/-! ## A writer that refuses bodies as `http.Server` does -/

/-- The status code in force on a writer: that of the first `WriteHeader`. -/
def statusOf : ResponseWriter → Option Int
  | [] => none
  | Op.writeHeader c :: _ => some c
  | _ :: rest => statusOf rest

/-- Function `bodyAllowedForStatus` of `net/http`: no body with status 1xx, 204 and 304. -/
def bodyAllowedForStatus (status : Int) : Bool :=
  if 100 ≤ status ∧ status ≤ 199 then false
  else if status = 204 then false
  else if status = 304 then false
  else true

/-- The error a server response returns from `Write`: `http.ErrBodyNotAllowed` when the status in
force allows no body, nil otherwise. -/
def serverWrite : WriteAnswer := fun w _ =>
  match statusOf w with
  | some c =>
    if bodyAllowedForStatus c then none
    else some "http: request method or response status code does not allow body"
  | none => none

/-! ## A marshaller for scalar maps -/

/-- JSON text of a scalar; values of other kinds are not encodable here. -/
def renderValue : Any → Except String String
  | .int n => .ok (toString n)
  | .str s => .ok ("\"" ++ s ++ "\"")
  | .bool b => .ok (if b then "true" else "false")
  | .other _ => .error "json: unsupported type"

/-- JSON text of the entries of a map, in the given order. -/
def renderEntries : JSONMap → Except String (List String)
  | [] => .ok []
  | (k, v) :: rest =>
    match renderValue v, renderEntries rest with
    | .ok s, .ok ss => .ok (("\"" ++ k ++ "\":" ++ s) :: ss)
    | .error e, _ => .error e
    | _, .error e => .error e

/-- A marshaller for maps of scalars: an object of the entries in the order given (the library
sorts them by key), then a newline. It fails on an entry that is not a scalar. -/
def marshalScalars : Marshaler := fun m =>
  match renderEntries m with
  | .ok ss => .ok ("\x7b" ++ ",".intercalate ss ++ "\x7d\n")
  | .error e => .error e

/-! ## Lemmas on the transport -/

/-- The body after one more operation. -/
theorem body_snoc (w : ResponseWriter) (op : Op) :
    body (w ++ [op]) = match op with
      | .write b => body w ++ b
      | _ => body w := by
  cases op <;> simp [body, List.foldl_append]

/-- Operations other than `Write` leave the body as it is. -/
theorem body_append_of_no_write (w ops : ResponseWriter)
    (h : ∀ op ∈ ops, op.isWrite = false) : body (w ++ ops) = body w := by
  induction ops using List.reverseRecOn with
  | nil => simp
  | append_singleton l op ih =>
    have hl : ∀ o ∈ l, o.isWrite = false := fun o ho => h o (by simp [ho])
    have hop : op.isWrite = false := h op (by simp)
    rw [← List.append_assoc, body_snoc, ih hl]
    cases op <;> simp_all [Op.isWrite]

/-- The operations `Write` performs before the body, for any envelope. -/
theorem Write_prelude (marshal : Marshaler) (wr : WriteAnswer) (now : Int) (r : Response)
    (w : ResponseWriter) :
    ∃ rest, (r.Write marshal wr now w).1 =
        w ++ (r.cookie.toList.map Op.setCookie ++
          [Op.headerSet "content-type" "application/json", Op.writeHeader r.code] ++ rest) ∧
      ∀ op ∈ rest, op.isWrite = true := by
  obtain ⟨code, msg, data, cookie⟩ := r
  have key : ∀ (w3 : ResponseWriter) (doc : JSONMap),
      ∃ rest, (Encode marshal wr w3 doc).1 = w3 ++ rest ∧ ∀ op ∈ rest, op.isWrite = true := by
    intro w3 doc
    simp only [Encode]
    cases marshal doc with
    | error e => exact ⟨[], by simp, by simp⟩
    | ok b => exact ⟨[Op.write b], by simp, by simp [Op.isWrite]⟩
  cases data with
  | some d =>
    obtain ⟨rest, h, hw⟩ := key
      (WriteHeader (HeaderSet (match cookie with
        | some c => SetCookie w c
        | none => w) "content-type" "application/json") code)
      [("status", Any.int code), ("message", Any.str msg), ("data", d), ("ts", Any.int now)]
    refine ⟨rest, ?_, hw⟩
    simp only [Response.Write, h]
    cases cookie <;> simp [SetCookie, HeaderSet, WriteHeader]
  | none =>
    by_cases hm : msg = ""
    · refine ⟨[], ?_, by simp⟩
      cases cookie <;> simp [Response.Write, hm, SetCookie, HeaderSet, WriteHeader]
    · obtain ⟨rest, h, hw⟩ := key
        (WriteHeader (HeaderSet (match cookie with
          | some c => SetCookie w c
          | none => w) "content-type" "application/json") code)
        [("status", Any.int code), ("message", Any.str msg), ("ts", Any.int now)]
      refine ⟨rest, ?_, hw⟩
      simp only [Response.Write, hm, if_false, h]
      cases cookie <;> simp [SetCookie, HeaderSet, WriteHeader]

/-- A map with the four keys of the payload document and given entries is the literal. -/
theorem map_shape4 (doc : JSONMap) (a b c d : Any)
    (hk : doc.keys = ["status", "message", "data", "ts"])
    (h1 : doc.get "status" = some a) (h2 : doc.get "message" = some b)
    (h3 : doc.get "data" = some c) (h4 : doc.get "ts" = some d) :
    doc = [("status", a), ("message", b), ("data", c), ("ts", d)] := by
  rcases doc with _ | ⟨⟨k1, v1⟩, _ | ⟨⟨k2, v2⟩, _ | ⟨⟨k3, v3⟩, _ | ⟨⟨k4, v4⟩, _ | ⟨_, _⟩⟩⟩⟩⟩ <;>
    simp [JSONMap.keys] at hk
  obtain ⟨rfl, rfl, rfl, rfl⟩ := hk
  simp [JSONMap.get, List.lookup] at h1 h2 h3 h4
  simp [h1, h2, h3, h4]

/-- A map with three given keys and given entries is the literal. -/
theorem map_shape3 (doc : JSONMap) (k1 k2 k3 : String) (a b c : Any)
    (h12 : k1 ≠ k2) (h13 : k1 ≠ k3) (h23 : k2 ≠ k3)
    (hk : doc.keys = [k1, k2, k3])
    (h1 : doc.get k1 = some a) (h2 : doc.get k2 = some b) (h3 : doc.get k3 = some c) :
    doc = [(k1, a), (k2, b), (k3, c)] := by
  rcases doc with _ | ⟨⟨j1, v1⟩, _ | ⟨⟨j2, v2⟩, _ | ⟨⟨j3, v3⟩, _ | ⟨_, _⟩⟩⟩⟩ <;>
    simp [JSONMap.keys] at hk
  obtain ⟨rfl, rfl, rfl⟩ := hk
  have e21 : (j2 == j1) = false := by simpa using fun h => h12 h.symm
  have e31 : (j3 == j1) = false := by simpa using fun h => h13 h.symm
  have e32 : (j3 == j2) = false := by simpa using fun h => h23 h.symm
  simp [JSONMap.get, List.lookup, e21, e31, e32] at h1 h2 h3
  simp [h1, h2, h3]

/-! ## The success envelope -/

/-- What `WithData` returns, field by field. -/
theorem WithData_fields (r : Response) (d : Option Any) :
    (r.WithData d).code = r.code ∧ (r.WithData d).msg = r.msg ∧ (r.WithData d).data = d ∧
      (r.WithData d).cookie = none :=
  ⟨rfl, rfl, rfl, rfl⟩

/-- C1, evaluated where it fails: the envelope `Ok("ok").WithCookie(c)` carries the cookie `c`;
after `WithData(42)` the status code and the message are kept and the payload is 42, but the cookie
is nil and differs from that of the receiver, and writing the result performs no set-cookie
operation. -/
theorem WithData_drops_cookie :
    ((Ok "ok").WithCookie (some ⟨"sid", "abc"⟩)).cookie = some ⟨"sid", "abc"⟩ ∧
    (((Ok "ok").WithCookie (some ⟨"sid", "abc"⟩)).WithData (some (Any.int 42))).code = 200 ∧
    (((Ok "ok").WithCookie (some ⟨"sid", "abc"⟩)).WithData (some (Any.int 42))).msg = "ok" ∧
    (((Ok "ok").WithCookie (some ⟨"sid", "abc"⟩)).WithData (some (Any.int 42))).data =
      some (Any.int 42) ∧
    (((Ok "ok").WithCookie (some ⟨"sid", "abc"⟩)).WithData (some (Any.int 42))).cookie = none ∧
    (((Ok "ok").WithCookie (some ⟨"sid", "abc"⟩)).WithData (some (Any.int 42))).cookie ≠
      ((Ok "ok").WithCookie (some ⟨"sid", "abc"⟩)).cookie ∧
    ((((Ok "ok").WithCookie (some ⟨"sid", "abc"⟩)).WithData (some (Any.int 42))).Write
        marshalScalars serverWrite 1700000000 []).1.any Op.isSetCookie = false ∧
    (((Ok "ok").WithCookie (some ⟨"sid", "abc"⟩)).Write
        marshalScalars serverWrite 1700000000 []).1.any Op.isSetCookie = true := by
  decide

/-- C9: from one base envelope `r`, `WithData(d1)` and `WithData(d2)` carry `d1` and `d2` with the
status code and message of `r`; `WithCookie(c1)` and `WithCookie(c2)` carry `c1` and `c2` with the
status code, message and payload of `r`. The receiver is passed by value and each method builds its
result from it in a fresh literal: every result is a function of `r` and its own argument only, so
`r` is the same value before and after the four calls and no call sees the result of another. -/
theorem With_methods_keep_receiver (r : Response) (d1 d2 : Option Any) (c1 c2 : Option Cookie) :
    ((r.WithData d1).data = d1 ∧ (r.WithData d1).code = r.code ∧ (r.WithData d1).msg = r.msg) ∧
    ((r.WithData d2).data = d2 ∧ (r.WithData d2).code = r.code ∧ (r.WithData d2).msg = r.msg) ∧
    ((r.WithCookie c1).cookie = c1 ∧ (r.WithCookie c1).code = r.code ∧
      (r.WithCookie c1).msg = r.msg ∧ (r.WithCookie c1).data = r.data) ∧
    ((r.WithCookie c2).cookie = c2 ∧ (r.WithCookie c2).code = r.code ∧
      (r.WithCookie c2).msg = r.msg ∧ (r.WithCookie c2).data = r.data) ∧
    (let a := r.WithData d1
     let b := r.WithData d2
     let c := r.WithCookie c1
     let d := r.WithCookie c2
     (a, b, c, d) = (Response.mk r.code r.msg d1 none, Response.mk r.code r.msg d2 none,
        Response.mk r.code r.msg r.data c1, Response.mk r.code r.msg r.data c2) ∧
     r = Response.mk r.code r.msg r.data r.cookie) :=
  ⟨⟨rfl, rfl, rfl⟩, ⟨rfl, rfl, rfl⟩, ⟨rfl, rfl, rfl, rfl⟩, ⟨rfl, rfl, rfl, rfl⟩, rfl, rfl⟩

/-- An envelope without payload and with the empty message: the operations of `Write`. -/
theorem Write_bare (marshal : Marshaler) (wr : WriteAnswer) (now : Int) (w : ResponseWriter)
    (code : Int)
    (ck : Option Cookie) :
    (Response.mk code "" none ck).Write marshal wr now w =
        (w ++ (ck.toList.map Op.setCookie ++
          [Op.headerSet "content-type" "application/json", Op.writeHeader code]), none) ∧
      body ((Response.mk code "" none ck).Write marshal wr now w).1 = body w := by
  have h : (Response.mk code "" none ck).Write marshal wr now w =
      (w ++ (ck.toList.map Op.setCookie ++
        [Op.headerSet "content-type" "application/json", Op.writeHeader code]), none) := by
    cases ck <;> simp [Response.Write, SetCookie, HeaderSet, WriteHeader]
  refine ⟨h, ?_⟩
  rw [h]
  apply body_append_of_no_write
  intro op hop
  cases ck <;> simp at hop <;> rcases hop with rfl | rfl | rfl <;> rfl

/-- The operations of `NoContent().Write`. -/
theorem NoContent_Write (marshal : Marshaler) (wr : WriteAnswer) (now : Int)
    (w : ResponseWriter) :
    NoContent.Write marshal wr now w =
        (w ++ [Op.headerSet "content-type" "application/json", Op.writeHeader 204], none) ∧
      body (NoContent.Write marshal wr now w).1 = body w := by
  have h := Write_bare marshal wr now w StatusNoContent none
  simpa [NoContent, StatusNoContent] using h

/-- C6: writing `NoContent()` sets the content type, emits status 204, writes no body byte and
returns no error; and every envelope without payload and with the empty message (any status code,
cookie or not) has its status code emitted, no body byte written and no error returned. -/
theorem Write_empty_body (marshal : Marshaler) (wr : WriteAnswer) (now : Int)
    (w : ResponseWriter) :
    (NoContent.Write marshal wr now w =
        (w ++ [Op.headerSet "content-type" "application/json", Op.writeHeader 204], none) ∧
      body (NoContent.Write marshal wr now w).1 = body w) ∧
    ∀ (code : Int) (ck : Option Cookie),
      (Response.mk code "" none ck).Write marshal wr now w =
        (w ++ (ck.toList.map Op.setCookie ++
          [Op.headerSet "content-type" "application/json", Op.writeHeader code]), none) ∧
      body ((Response.mk code "" none ck).Write marshal wr now w).1 = body w :=
  ⟨NoContent_Write marshal wr now w, fun code ck => Write_bare marshal wr now w code ck⟩

/-- C4: with a cookie attached, the operations `Write` performs start with the set-cookie
operation, followed by the content type, then the status code, then only body writes: the cookie is
set strictly before the status code is emitted and before any body byte. Without a cookie, none of
the operations `Write` performs is a set-cookie operation. -/
theorem Write_cookie_first (marshal : Marshaler) (wr : WriteAnswer) (now : Int) (code : Int)
    (msg : String)
    (data : Option Any) (w : ResponseWriter) :
    (∀ c : Cookie, ∃ rest,
      ((Response.mk code msg data (some c)).Write marshal wr now w).1 =
        w ++ (Op.setCookie c :: Op.headerSet "content-type" "application/json" ::
          Op.writeHeader code :: rest) ∧
      (∀ op ∈ rest, op.isWrite = true) ∧
      (∀ op ∈ Op.headerSet "content-type" "application/json" :: Op.writeHeader code :: rest,
        op.isSetCookie = false)) ∧
    (∃ ops, ((Response.mk code msg data none).Write marshal wr now w).1 = w ++ ops ∧
      Op.writeHeader code ∈ ops ∧ ∀ op ∈ ops, op.isSetCookie = false) := by
  have nosc : ∀ rest : List Op, (∀ op ∈ rest, op.isWrite = true) →
      ∀ op ∈ Op.headerSet "content-type" "application/json" :: Op.writeHeader code :: rest,
        op.isSetCookie = false := by
    intro rest hw op hop
    simp only [List.mem_cons] at hop
    rcases hop with rfl | rfl | h
    · rfl
    · rfl
    · have := hw op h
      cases op <;> simp_all [Op.isWrite, Op.isSetCookie]
  constructor
  · intro c
    obtain ⟨rest, h, hw⟩ := Write_prelude marshal wr now (Response.mk code msg data (some c)) w
    exact ⟨rest, by simpa using h, hw, nosc rest hw⟩
  · obtain ⟨rest, h, hw⟩ := Write_prelude marshal wr now (Response.mk code msg data none) w
    exact ⟨_, by simpa using h, by simp, nosc rest hw⟩

/-- A failed `Write` of the transport is what `Write` of the envelope returns: on a server
response with status 204 the body of `NoContent().WithData(42)` is handed over and refused. -/
theorem Write_returns_transport_error :
    (NoContent.WithData (some (Any.int 42))).Write marshalScalars serverWrite 1700000000 [] =
      ([Op.headerSet "content-type" "application/json", Op.writeHeader 204,
        Op.write "\x7b\"status\":204,\"message\":\"\",\"data\":42,\"ts\":1700000000\x7d\n"],
        some "http: request method or response status code does not allow body") := by
  rfl

/-- An encoding error is what `Write` of the envelope returns, and no body is handed over. -/
theorem Write_returns_encoding_error :
    ((Ok "created").WithData (some (Any.other 0))).Write marshalScalars serverWrite 1700000000 [] =
      ([Op.headerSet "content-type" "application/json", Op.writeHeader 200],
        some "json: unsupported type") := by
  rfl

/-- C3: for an envelope with payload `P` present and message `M` (empty or not), `Write` sets the
content type to `application/json`, emits the status code of the envelope and then hands the
transport, in one `Write`, the marshalled bytes of the map `doc` that has exactly the keys status,
message, data and ts, with data `P`, message `M`, status the emitted status code and ts the current
time. What `Write` returns is the error the transport returns from that `Write` (nil when the
transport accepts the body). The payload is one the marshaller accepts. -/
theorem Write_payload_document (marshal : Marshaler) (wr : WriteAnswer) (now : Int) (code : Int)
    (M : String) (P : Any) (ck : Option Cookie) (w : ResponseWriter) (doc : JSONMap)
    (out : String)
    (hkeys : doc.keys = ["status", "message", "data", "ts"])
    (hstatus : doc.get "status" = some (Any.int code))
    (hmessage : doc.get "message" = some (Any.str M))
    (hdata : doc.get "data" = some P)
    (hts : doc.get "ts" = some (Any.int now))
    (hmarshal : marshal doc = Except.ok out) :
    (Response.mk code M (some P) ck).Write marshal wr now w =
        (w ++ (ck.toList.map Op.setCookie ++
          [Op.headerSet "content-type" "application/json", Op.writeHeader code, Op.write out]),
          wr (w ++ (ck.toList.map Op.setCookie ++
            [Op.headerSet "content-type" "application/json", Op.writeHeader code])) out) ∧
      body ((Response.mk code M (some P) ck).Write marshal wr now w).1 = body w ++ out := by
  have hdoc := map_shape4 doc _ _ _ _ hkeys hstatus hmessage hdata hts
  subst hdoc
  have h : (Response.mk code M (some P) ck).Write marshal wr now w =
        (w ++ (ck.toList.map Op.setCookie ++
          [Op.headerSet "content-type" "application/json", Op.writeHeader code, Op.write out]),
          wr (w ++ (ck.toList.map Op.setCookie ++
            [Op.headerSet "content-type" "application/json", Op.writeHeader code])) out) := by
    cases ck <;> simp [Response.Write, Encode, hmarshal, SetCookie, HeaderSet, WriteHeader]
  refine ⟨h, ?_⟩
  rw [h]
  have e : w ++ (ck.toList.map Op.setCookie ++
      [Op.headerSet "content-type" "application/json", Op.writeHeader code, Op.write out]) =
      (w ++ (ck.toList.map Op.setCookie ++
        [Op.headerSet "content-type" "application/json", Op.writeHeader code])) ++
        [Op.write out] := by simp
  rw [e, body_snoc]
  simp only
  rw [body_append_of_no_write]
  intro op hop
  cases ck <;> simp at hop <;> rcases hop with rfl | rfl | rfl <;> rfl

/-- C3 at `Ok("created").WithData(42)` with the marshaller for scalar maps, on a server response:
status 200 allows the body and nil is returned. -/
theorem Write_payload_document_witness :
    ((Ok "created").WithData (some (Any.int 42))).Write marshalScalars serverWrite 1700000000 [] =
        ([Op.headerSet "content-type" "application/json", Op.writeHeader 200,
          Op.write "\x7b\"status\":200,\"message\":\"created\",\"data\":42,\"ts\":1700000000\x7d\n"],
          none) ∧
      body (((Ok "created").WithData (some (Any.int 42))).Write
          marshalScalars serverWrite 1700000000 []).1 =
        "\x7b\"status\":200,\"message\":\"created\",\"data\":42,\"ts\":1700000000\x7d\n" :=
  Write_payload_document marshalScalars serverWrite 1700000000 200 "created" (Any.int 42) none []
    [("status", Any.int 200), ("message", Any.str "created"), ("data", Any.int 42),
      ("ts", Any.int 1700000000)]
    "\x7b\"status\":200,\"message\":\"created\",\"data\":42,\"ts\":1700000000\x7d\n"
    (by decide) (by decide) (by decide) (by decide) (by decide) rfl

/-- C7: for a non-empty message `M`, `Ok(M)` has status 200, message `M`, no payload and no cookie;
and writing an envelope `r` without payload whose message `M` is non-empty (so `Ok(M)` too) emits
the status code and then hands the transport, in one `Write`, the marshalled bytes of the map `doc`
that has exactly the keys status, message and ts, with message `M`, status the status code of `r`
and ts the current time; `doc` has no data key. What `Write` returns is the error the transport
returns from that `Write` (nil when the transport accepts the body). -/
theorem Write_message_document (marshal : Marshaler) (wr : WriteAnswer) (now : Int)
    (r : Response) (w : ResponseWriter) (doc : JSONMap) (out : String)
    (hdata : r.data = none) (hmsg : r.msg ≠ "")
    (hkeys : doc.keys = ["status", "message", "ts"])
    (hstatus : doc.get "status" = some (Any.int r.code))
    (hmessage : doc.get "message" = some (Any.str r.msg))
    (hts : doc.get "ts" = some (Any.int now))
    (hmarshal : marshal doc = Except.ok out) :
    ((Ok r.msg).code = 200 ∧ (Ok r.msg).msg = r.msg ∧ (Ok r.msg).data = none ∧
      (Ok r.msg).cookie = none) ∧
    r.Write marshal wr now w =
        (w ++ (r.cookie.toList.map Op.setCookie ++
          [Op.headerSet "content-type" "application/json", Op.writeHeader r.code, Op.write out]),
          wr (w ++ (r.cookie.toList.map Op.setCookie ++
            [Op.headerSet "content-type" "application/json", Op.writeHeader r.code])) out) ∧
    body (r.Write marshal wr now w).1 = body w ++ out ∧
    doc.get "data" = none ∧ "data" ∉ doc.keys := by
  have hdoc := map_shape3 doc "status" "message" "ts" _ _ _ (by decide) (by decide) (by decide)
    hkeys hstatus hmessage hts
  subst hdoc
  obtain ⟨code, msg, data, ck⟩ := r
  simp only at hdata hmsg hmarshal
  subst hdata
  have h : (Response.mk code msg none ck).Write marshal wr now w =
        (w ++ (ck.toList.map Op.setCookie ++
          [Op.headerSet "content-type" "application/json", Op.writeHeader code, Op.write out]),
          wr (w ++ (ck.toList.map Op.setCookie ++
            [Op.headerSet "content-type" "application/json", Op.writeHeader code])) out) := by
    cases ck <;> simp [Response.Write, Encode, hmarshal, hmsg, SetCookie, HeaderSet, WriteHeader]
  refine ⟨⟨rfl, rfl, rfl, rfl⟩, h, ?_, by simp [JSONMap.get, List.lookup],
    by simp [JSONMap.keys]⟩
  rw [h]
  have e : w ++ (ck.toList.map Op.setCookie ++
      [Op.headerSet "content-type" "application/json", Op.writeHeader code, Op.write out]) =
      (w ++ (ck.toList.map Op.setCookie ++
        [Op.headerSet "content-type" "application/json", Op.writeHeader code])) ++
        [Op.write out] := by simp
  rw [e, body_snoc]
  simp only
  rw [body_append_of_no_write]
  intro op hop
  cases ck <;> simp at hop <;> rcases hop with rfl | rfl | rfl <;> rfl

/-- C7 at `Ok("created")` with the marshaller for scalar maps, on a server response: status 200
allows the body and nil is returned. -/
theorem Write_message_document_witness :
    ((Ok "created").code = 200 ∧ (Ok "created").msg = "created" ∧ (Ok "created").data = none ∧
      (Ok "created").cookie = none) ∧
    (Ok "created").Write marshalScalars serverWrite 1700000000 [] =
        ([Op.headerSet "content-type" "application/json", Op.writeHeader 200,
          Op.write "\x7b\"status\":200,\"message\":\"created\",\"ts\":1700000000\x7d\n"], none) ∧
    body ((Ok "created").Write marshalScalars serverWrite 1700000000 []).1 =
      "\x7b\"status\":200,\"message\":\"created\",\"ts\":1700000000\x7d\n" ∧
    JSONMap.get [("status", Any.int 200), ("message", Any.str "created"),
      ("ts", Any.int 1700000000)] "data" = none ∧
    "data" ∉ JSONMap.keys [("status", Any.int 200), ("message", Any.str "created"),
      ("ts", Any.int 1700000000)] :=
  Write_message_document marshalScalars serverWrite 1700000000 (Ok "created") []
    [("status", Any.int 200), ("message", Any.str "created"), ("ts", Any.int 1700000000)]
    "\x7b\"status\":200,\"message\":\"created\",\"ts\":1700000000\x7d\n"
    (by decide) (by decide) (by decide) (by decide) (by decide) (by decide) rfl

/-! ## The error envelope -/

/-- C2: what `Write` of an `Error` does to the transport and returns depends on `StatusCode` and
`Msg` only: two errors that agree on both write the same output and return the same at the same
timestamp, whatever their internal causes `Status`; and the output is the content type, the status
code and, handed to the transport in one `Write`, the marshalled bytes of the map `doc` that has
exactly the three keys status, error and ts, with status `StatusCode`, error `Msg` and ts the
current time. What `Write` returns is the error the transport returns from that `Write` (nil when
the transport accepts the body). -/
theorem Error_Write_hides_cause (marshal : Marshaler) (wr : WriteAnswer) (now : Int)
    (e1 e2 : Error) (w : ResponseWriter)
    (hcode : e1.StatusCode = e2.StatusCode) (hpub : e1.Msg = e2.Msg) :
    e1.Write marshal wr now w = e2.Write marshal wr now w ∧
    ∀ (doc : JSONMap) (out : String),
      doc.keys = ["status", "error", "ts"] →
      doc.get "status" = some (Any.int e1.StatusCode) →
      doc.get "error" = some (Any.str e1.Msg) →
      doc.get "ts" = some (Any.int now) →
      marshal doc = Except.ok out →
      e1.Write marshal wr now w =
        (w ++ [Op.headerSet "content-type" "application/json", Op.writeHeader e1.StatusCode,
          Op.write out],
          wr (w ++ [Op.headerSet "content-type" "application/json",
            Op.writeHeader e1.StatusCode]) out) ∧
      body (e1.Write marshal wr now w).1 = body w ++ out := by
  refine ⟨?_, ?_⟩
  · simp [Error.Write, hcode, hpub]
  · intro doc out hkeys hstatus herror hts hmarshal
    have hdoc := map_shape3 doc "status" "error" "ts" _ _ _ (by decide) (by decide) (by decide)
      hkeys hstatus herror hts
    subst hdoc
    have h : e1.Write marshal wr now w =
        (w ++ [Op.headerSet "content-type" "application/json", Op.writeHeader e1.StatusCode,
          Op.write out],
          wr (w ++ [Op.headerSet "content-type" "application/json",
            Op.writeHeader e1.StatusCode]) out) := by
      simp [Error.Write, Encode, hmarshal, HeaderSet, WriteHeader]
    refine ⟨h, ?_⟩
    rw [h]
    have e : w ++ [Op.headerSet "content-type" "application/json",
        Op.writeHeader e1.StatusCode, Op.write out] =
        (w ++ [Op.headerSet "content-type" "application/json",
          Op.writeHeader e1.StatusCode]) ++ [Op.write out] := by simp
    rw [e, body_snoc]
    simp only
    rw [body_append_of_no_write]
    intro op hop
    simp at hop
    rcases hop with rfl | rfl <;> rfl

/-- C2 at two errors with status 500 and public message "oops" whose causes differ, on a server
response: status 500 allows the body and nil is returned. -/
theorem Error_Write_hides_cause_witness :
    Error.Write marshalScalars serverWrite 1700000000
        ⟨500, some (Errorf "db password %s rejected" [Any.str "hunter2"]), "oops"⟩ [] =
      Error.Write marshalScalars serverWrite 1700000000 ⟨500, some (Errorf "disk full" []), "oops"⟩ [] ∧
    Error.Write marshalScalars serverWrite 1700000000
        ⟨500, some (Errorf "db password %s rejected" [Any.str "hunter2"]), "oops"⟩ [] =
      ([Op.headerSet "content-type" "application/json", Op.writeHeader 500,
        Op.write "\x7b\"status\":500,\"error\":\"oops\",\"ts\":1700000000\x7d\n"], none) :=
  let h := Error_Write_hides_cause marshalScalars serverWrite 1700000000
    ⟨500, some (Errorf "db password %s rejected" [Any.str "hunter2"]), "oops"⟩
    ⟨500, some (Errorf "disk full" []), "oops"⟩ [] (by decide) (by decide)
  ⟨h.1, (h.2 [("status", Any.int 500), ("error", Any.str "oops"), ("ts", Any.int 1700000000)]
    "\x7b\"status\":500,\"error\":\"oops\",\"ts\":1700000000\x7d\n"
    (by decide) (by decide) (by decide) (by decide) rfl).1⟩

/-- A cell of the heap is not touched by an allocation. -/
theorem alloc_keeps (h : Heap) (e : Error) (i : Nat) (hi : i < h.length) :
    (h.alloc e).1[i]? = h[i]? := by
  simp [Heap.alloc, List.getElem?_append_left hi]

/-- The fresh cell of an allocation holds the value allocated. -/
theorem alloc_new (h : Heap) (e : Error) : (h.alloc e).1[(h.alloc e).2]? = some e := by
  simp [Heap.alloc]

/-- What every status-specific constructor allocates. -/
theorem Ctor_build_eq (k : Ctor) (h : Heap) (c : String) (args : List Any) :
    k.build h c args =
      h.alloc { StatusCode := k.status, Status := some (Errorf c args), Msg := "" } := by
  cases k <;> rfl

/-- C8: each of `BadRequest`, `NotAuthorized`, `Forbidden`, `NotFound`, `Internal`, called with a
cause text `c` (and operands), allocates an error `e` whose `Code()` is 400, 401, 403, 404, 500
respectively, whose cause is `fmt.Errorf(c, ...)` and whose public message is empty, leaving the
errors allocated before as they were; and `e.WithMessage(m)` allocates a new error, at an address
other than `e`, with the same status code, the same cause and public message `m`, while the error
at `e`, like every other error allocated before, is left unchanged. -/
theorem Ctor_WithMessage (k : Ctor) (h : Heap) (c : String) (args : List Any) (m : String) :
    ∃ (h1 : Heap) (e : Nat) (v : Error),
      k.build h c args = (h1, e) ∧ h1[e]? = some v ∧
      v.Code = k.status ∧ v.Err = some (Errorf c args) ∧ v.Msg = "" ∧
      (∀ i, i < h.length → h1[i]? = h[i]?) ∧
      ∃ (h2 : Heap) (e2 : Nat) (v2 : Error),
        WithMessage h1 e m = some (h2, e2) ∧ e2 ≠ e ∧ h2[e2]? = some v2 ∧
        v2.Code = k.status ∧ v2.Err = v.Err ∧ v2.Msg = m ∧
        h2[e]? = some v ∧ (∀ i, i < h1.length → h2[i]? = h1[i]?) := by
  let v : Error := { StatusCode := k.status, Status := some (Errorf c args), Msg := "" }
  let v2 : Error := { StatusCode := k.status, Status := some (Errorf c args), Msg := m }
  have hv : (h.alloc v).1[(h.alloc v).2]? = some v := alloc_new h v
  have hlen : (h.alloc v).2 < (h.alloc v).1.length := by simp [Heap.alloc]
  have hw : WithMessage (h.alloc v).1 (h.alloc v).2 m = some ((h.alloc v).1.alloc v2) := by
    simp only [WithMessage, hv]
  refine ⟨(h.alloc v).1, (h.alloc v).2, v, ?_, hv, rfl, rfl, rfl,
    fun i hi => alloc_keeps h v i hi, ?_⟩
  · rw [Ctor_build_eq]
  · refine ⟨((h.alloc v).1.alloc v2).1, ((h.alloc v).1.alloc v2).2, v2, hw, ?_,
      alloc_new _ v2, rfl, rfl, rfl, ?_, fun i hi => alloc_keeps _ v2 i hi⟩
    · simp [Heap.alloc]
    · rw [alloc_keeps _ v2 _ hlen, hv]

/-! ## The request identifier -/

/-- Without a value under `reqID{}` in the chain, `Value(reqID{})` is nil. -/
theorem Value_of_no_request_id (ctx : Context) (h : ctx.hasRequestID = false) :
    ctx.Value Key.reqID = none := by
  induction ctx with
  | background => rfl
  | withValue parent k v ih =>
    simp only [Context.hasRequestID, Bool.or_eq_false_iff, beq_eq_false_iff_ne, ne_eq] at h
    simp [Context.Value, h.1, ih h.2]
  | derived parent ih =>
    simp only [Context.hasRequestID] at h
    simp [Context.Value, ih h]

/-- Derivation steps that attach no identifier keep the value under `reqID{}`. -/
theorem Value_derive (steps : List Step) (ctx : Context) :
    (ctx.derive steps).Value Key.reqID = ctx.Value Key.reqID := by
  induction steps generalizing ctx with
  | nil => rfl
  | cons st rest ih =>
    cases st with
    | value k v => simp [Context.derive, ih, Context.Value]
    | plain => simp [Context.derive, ih, Context.Value]

/-- C10: if no request identifier was attached to `ctx` or one of its ancestors, `RequestID(ctx)`
is the sentinel "<missing-request-id>", which is not the empty string; and for the token `uuid`
that `NewRequestID` generates and stores, `RequestID(NewRequestID(ctx))` is `uuid`, and so is
`RequestID` of every context derived from it by steps that attach no identifier. -/
theorem RequestID_sentinel_or_token (ctx : Context) :
    (ctx.hasRequestID = false → RequestID ctx = "<missing-request-id>") ∧
    "<missing-request-id>" ≠ "" ∧
    ∀ (uuid : String) (steps : List Step),
      RequestID (NewRequestID uuid ctx) = uuid ∧
      RequestID ((NewRequestID uuid ctx).derive steps) = uuid := by
  refine ⟨?_, by decide, ?_⟩
  · intro h
    simp [RequestID, Value_of_no_request_id ctx h]
  · intro uuid steps
    have h0 : (NewRequestID uuid ctx).Value Key.reqID = some (Any.str uuid) := by
      simp [NewRequestID, Context.Value]
    constructor
    · simp [RequestID, h0]
    · simp [RequestID, Value_derive, h0]

/-- C10 at a context that carries a value under another key only. -/
theorem RequestID_sentinel_or_token_witness :
    RequestID (Context.derived
        (Context.withValue Context.background (Key.other (Any.str "user")) (some (Any.int 7)))) =
      "<missing-request-id>" ∧
    RequestID ((NewRequestID "6ba7b810-9dad-11d1-80b4-00c04fd430c8"
        (Context.derived (Context.withValue Context.background (Key.other (Any.str "user"))
          (some (Any.int 7))))).derive
        [Step.plain, Step.value (Any.str "user") (some (Any.str "x")), Step.plain]) =
      "6ba7b810-9dad-11d1-80b4-00c04fd430c8" :=
  ⟨(RequestID_sentinel_or_token (Context.derived
      (Context.withValue Context.background (Key.other (Any.str "user")) (some (Any.int 7))))).1
      (by decide),
    ((RequestID_sentinel_or_token (Context.derived
      (Context.withValue Context.background (Key.other (Any.str "user")) (some (Any.int 7))))).2.2
      "6ba7b810-9dad-11d1-80b4-00c04fd430c8"
      [Step.plain, Step.value (Any.str "user") (some (Any.str "x")), Step.plain]).2⟩

/-! ## The preflight middleware -/

/-- The bytes of `OPTIONS` spell the literal. -/
theorem OPTIONS_spelling : OPTIONS.map (fun b => Char.ofNat b.val) = "OPTIONS".toList := by
  decide

/-- A bitwise OR is zero only when both operands are. -/
theorem lor_eq_zero (a b : Nat) : a ||| b = 0 ↔ a = 0 ∧ b = 0 := by
  constructor
  · intro h
    have key : ∀ i, a.testBit i = false ∧ b.testBit i = false := by
      intro i
      have := congrArg (fun n => Nat.testBit n i) h
      simpa [Nat.testBit_or] using this
    exact ⟨Nat.eq_of_testBit_eq (by intro i; simp [(key i).1]),
      Nat.eq_of_testBit_eq (by intro i; simp [(key i).2])⟩
  · rintro ⟨rfl, rfl⟩
    simp

/-- On a byte, `ConstantTimeByteEq(v, 0)` is 1 exactly when the byte is zero. -/
theorem ConstantTimeByteEq_zero (v : Nat) (hv : v < 256) :
    ConstantTimeByteEq v 0 = 1 ↔ v = 0 := by
  unfold ConstantTimeByteEq
  rw [Nat.xor_zero, Nat.shiftRight_eq_div_pow]
  constructor
  · intro h
    by_contra hne
    have : (v % 2 ^ 32 + 2 ^ 32 - 1) % 2 ^ 32 = v - 1 := by omega
    rw [this] at h
    omega
  · rintro rfl
    decide

/-- The accumulator of the comparison loop stays a byte. -/
theorem xorFold_lt (x y : List Byte) (v : Nat) (hv : v < 256) : xorFold v x y < 256 := by
  induction x generalizing v y with
  | nil => simpa [xorFold] using hv
  | cons a x ih =>
    cases y with
    | nil => simpa [xorFold] using hv
    | cons b y =>
      simp only [xorFold]
      apply ih
      have h1 : a.val ^^^ b.val < 2 ^ 8 := Nat.xor_lt_two_pow a.isLt b.isLt
      have h2 : v ||| (a.val ^^^ b.val) < 2 ^ 8 := Nat.or_lt_two_pow hv h1
      simpa using h2

/-- On slices of one length, the loop ends at zero exactly when it started at zero and the slices
are equal. -/
theorem xorFold_eq_zero (x y : List Byte) (v : Nat) (hlen : x.length = y.length) :
    xorFold v x y = 0 ↔ v = 0 ∧ x = y := by
  induction x generalizing v y with
  | nil =>
    cases y with
    | nil => simp [xorFold]
    | cons b y => simp at hlen
  | cons a x ih =>
    cases y with
    | nil => simp at hlen
    | cons b y =>
      simp only [List.length_cons, Nat.add_right_cancel_iff] at hlen
      simp only [xorFold]
      rw [ih y _ hlen, lor_eq_zero, Nat.xor_eq_zero]
      constructor
      · rintro ⟨⟨hv, hab⟩, hxy⟩
        exact ⟨hv, by rw [Fin.ext hab, hxy]⟩
      · rintro ⟨hv, hxy⟩
        simp only [List.cons.injEq] at hxy
        exact ⟨⟨hv, by rw [hxy.1]⟩, hxy.2⟩

/-- Function `ConstantTimeCompare` answers 1 exactly on equal byte sequences. -/
theorem ConstantTimeCompare_eq_one (x y : List Byte) : ConstantTimeCompare x y = 1 ↔ x = y := by
  unfold ConstantTimeCompare
  by_cases hlen : x.length = y.length
  · simp only [hlen, ne_eq, not_true_eq_false, if_false]
    rw [ConstantTimeByteEq_zero _ (xorFold_lt x y 0 (by decide)), xorFold_eq_zero x y 0 hlen]
    simp
  · simp only [ne_eq, hlen, not_false_eq_true, if_true]
    constructor
    · intro h
      exact absurd h (by decide)
    · intro h
      exact absurd (congrArg List.length h) hlen

/-- C5: the handler the preflight middleware returns for `next`, run on a writer `w` and a request
`r` with method `m`, calls `next.ServeHTTP` if and only if `m` is not exactly the byte sequence
"OPTIONS", and then exactly once, with `w` and `r` as they came, the response being what `next`
does; when `m` is exactly "OPTIONS", `next` is not called and the response is that of
`NoContent().Write`: content type, status 204 and no body byte. -/
theorem preflight_short_circuit (marshal : Marshaler) (wr : WriteAnswer) (now : Int)
    (next : Handler)
    (w : ResponseWriter) (r : Request) :
    ((preflight marshal wr now next w r).calls ≠ [] ↔ r.Method ≠ OPTIONS) ∧
    (r.Method ≠ OPTIONS →
      (preflight marshal wr now next w r).calls = [(w, r)] ∧
      (preflight marshal wr now next w r).w = next w r) ∧
    (r.Method = OPTIONS →
      (preflight marshal wr now next w r).calls = [] ∧
      (preflight marshal wr now next w r).w = (NoContent.Write marshal wr now w).1 ∧
      (preflight marshal wr now next w r).w =
        w ++ [Op.headerSet "content-type" "application/json", Op.writeHeader 204] ∧
      body (preflight marshal wr now next w r).w = body w) := by
  have hnc := NoContent_Write marshal wr now w
  by_cases hm : r.Method = OPTIONS
  · have hc : ConstantTimeCompare r.Method OPTIONS = 1 :=
      (ConstantTimeCompare_eq_one _ _).2 hm
    refine ⟨by simp only [preflight, hc, if_true]; simp [hm], fun h => absurd hm h, fun _ => ?_⟩
    refine ⟨by simp [preflight, hc], by simp [preflight, hc], ?_, ?_⟩
    · simp [preflight, hc, hnc.1]
    · simpa [preflight, hc] using hnc.2
  · have hc : ¬ ConstantTimeCompare r.Method OPTIONS = 1 :=
      fun h => hm ((ConstantTimeCompare_eq_one _ _).1 h)
    refine ⟨by simp only [preflight, hc, if_false]; simp [hm], fun _ => ?_, fun h => absurd h hm⟩
    exact ⟨by simp [preflight, hc], by simp [preflight, hc]⟩

/-- C5 at a GET, an OPTIONS and a lower-case "options" request, with a next handler that answers
status 200 and a body. -/
theorem preflight_short_circuit_witness :
    ((preflight marshalScalars serverWrite 1700000000
        (fun w _ => w ++ [Op.writeHeader 200, Op.write "hello"]) []
        ⟨[71, 69, 84], "/items", Context.background⟩).calls =
          [([], ⟨[71, 69, 84], "/items", Context.background⟩)] ∧
      (preflight marshalScalars serverWrite 1700000000
        (fun w _ => w ++ [Op.writeHeader 200, Op.write "hello"]) []
        ⟨[71, 69, 84], "/items", Context.background⟩).w =
          [Op.writeHeader 200, Op.write "hello"]) ∧
    ((preflight marshalScalars serverWrite 1700000000
        (fun w _ => w ++ [Op.writeHeader 200, Op.write "hello"]) []
        ⟨[111, 112, 116, 105, 111, 110, 115], "/items", Context.background⟩).calls =
          [([], ⟨[111, 112, 116, 105, 111, 110, 115], "/items", Context.background⟩)]) ∧
    ((preflight marshalScalars serverWrite 1700000000
        (fun w _ => w ++ [Op.writeHeader 200, Op.write "hello"]) []
        ⟨OPTIONS, "/items", Context.background⟩).calls = [] ∧
      (preflight marshalScalars serverWrite 1700000000
        (fun w _ => w ++ [Op.writeHeader 200, Op.write "hello"]) []
        ⟨OPTIONS, "/items", Context.background⟩).w =
          [Op.headerSet "content-type" "application/json", Op.writeHeader 204]) :=
  ⟨(preflight_short_circuit marshalScalars serverWrite 1700000000
      (fun w _ => w ++ [Op.writeHeader 200, Op.write "hello"]) []
      ⟨[71, 69, 84], "/items", Context.background⟩).2.1 (by decide),
    ((preflight_short_circuit marshalScalars serverWrite 1700000000
      (fun w _ => w ++ [Op.writeHeader 200, Op.write "hello"]) []
      ⟨[111, 112, 116, 105, 111, 110, 115], "/items", Context.background⟩).2.1 (by decide)).1,
    let h := (preflight_short_circuit marshalScalars serverWrite 1700000000
      (fun w _ => w ++ [Op.writeHeader 200, Op.write "hello"]) []
      ⟨OPTIONS, "/items", Context.background⟩).2.2 rfl
    ⟨h.1, h.2.2.1⟩⟩

end Rest
